import Mathlib

/-
Verification of the ReitanMat1000 still-JPEG capture programs.

The development shallowly embeds the two Python source files:
  * esp32_capture_to_video.py  (fetch_jpeg, pick_fourcc, the recorder main loop)
  * Esp32/fast_ipcam_still_stream.py  (the paced fetcher task, its backoff,
    and the single-slot latest-frame queue)
Machine floats are modelled as exact rationals; wall-clock time as an
idealised rational timeline; collaborator behaviour (HTTP, JPEG decode)
as explicit parameters.
-/

/-- Frame models a decoded image: width, height and an abstract pixel
content identifier (the pixel buffer itself is irrelevant to the claims). -/
structure Frame where
  w : Nat
  h : Nat
  data : Nat
deriving DecidableEq

/-- cvResize models cv2.resize: the result has exactly the requested
size (content is interpolated from the input, modelled as carried over). -/
def cvResize (f : Frame) (sz : Nat × Nat) : Frame :=
  ⟨sz.1, sz.2, f.data⟩

/-- Outcome of the HTTP GET performed by requests: a 2xx response carrying
body bytes, a non-2xx status (raise_for_status raises an HTTPError, a
subclass of RequestException), or a transport error or timeout (requests
raises a RequestException). -/
inductive HttpResult where
  | ok (body : List Nat)
  | badStatus
  | transportError
deriving DecidableEq

/-- Outcome of cv2.imdecode on the body bytes: a decoded image, a null
result (imdecode returns None), or an exception raised during decode
(such an exception is not a requests.RequestException). -/
inductive DecodeResult where
  | image (f : Frame)
  | null
  | raises
deriving DecidableEq

/-- The two classes of Python exception relevant to fetch_jpeg's
try/except: requests.RequestException and everything else. -/
inductive PyExc where
  | requestException
  | otherException
deriving DecidableEq

/-- fetch_jpeg from esp32_capture_to_video.py, lines 9-22.  The try block
covers the GET, raise_for_status and the decode; the single except clause
catches only requests.RequestException and returns None.  The result is
an Except: ok models a normal return (Option Frame, None on failure),
error models an exception propagating to the caller. -/
def fetch_jpeg (http : HttpResult) (imdecode : List Nat → DecodeResult) :
    Except PyExc (Option Frame) :=
  let tryBody : Except PyExc (Option Frame) :=
    match http with
    | .badStatus => .error .requestException
    | .transportError => .error .requestException
    | .ok body =>
      match imdecode body with
      | .image f => .ok (some f)
      | .null => .ok none
      | .raises => .error .otherException
  match tryBody with
  | .error .requestException => .ok none
  | r => r

/-- chrLower models Python str.lower on a single ASCII character. -/
def chrLower (c : Char) : Char :=
  if 'A' ≤ c ∧ c ≤ 'Z' then Char.ofNat (c.toNat + 32) else c

/-- strLower models Python str.lower (restricted to ASCII letters, which
covers every codec name the program compares against). -/
def strLower (s : String) : String :=
  ⟨s.data.map chrLower⟩

/-- fourcc models cv2.VideoWriter_fourcc: the four character codes packed
little-endian into one integer. -/
def fourcc (a b c d : Char) : Nat :=
  a.toNat % 256 + (b.toNat % 256) * 256 + (c.toNat % 256) * 65536 +
    (d.toNat % 256) * 16777216

/-- pick_fourcc from esp32_capture_to_video.py, lines 24-33: lowercase the
codec name, match the known names, default to mp4v. -/
def pick_fourcc (codec : String) : Nat :=
  let c := strLower codec
  if c = "mp4v" then fourcc 'm' 'p' '4' 'v'
  else if c = "xvid" then fourcc 'X' 'V' 'I' 'D'
  else if c = "mjpg" ∨ c = "mjpeg" then fourcc 'M' 'J' 'P' 'G'
  else fourcc 'm' 'p' '4' 'v'

/-- pyRound models Python round on an exact value: round half to even. -/
def pyRound (q : ℚ) : ℤ :=
  let f := ⌊q⌋
  let r := q - f
  if r < 1/2 then f
  else if 1/2 < r then f + 1
  else if f % 2 = 0 then f else f + 1

/-- totalFrames models line 84 of esp32_capture_to_video.py:
int(round(args.seconds * args.fps)). -/
def totalFrames (seconds fps : ℚ) : ℤ :=
  pyRound (seconds * fps)

/-- Observable events of a recorder session: a call to fetch_jpeg, the
error diagnostic followed by return, opening the VideoWriter with its
fixed size, writing a frame to it, and releasing it. -/
inductive Ev where
  | fetchAttempt (i : Nat)
  | errorExit
  | openWriter (sz : Nat × Nat)
  | write (f : Frame)
  | release
deriving DecidableEq

/-- sessionSize models lines 56-68: the fixed output size, from the
resize option when present, otherwise from the first frame. -/
def sessionSize (rs : Option (Nat × Nat)) (first : Frame) : Nat × Nat :=
  match rs with
  | some sz => sz
  | none => (first.w, first.h)

/-- firstWrite models the frame_to_write set up at lines 57-69: the first
frame, resized when the resize option is present. -/
def firstWrite (rs : Option (Nat × Nat)) (first : Frame) : Frame :=
  match rs with
  | some sz => cvResize first sz
  | none => first

/-- recLoop models the tick loop at lines 95-123 of
esp32_capture_to_video.py: k remaining iterations starting at tick index
i with the current last_good frame.  Each tick attempts one fetch; on
failure it writes last_good unchanged, on success it resizes the frame
to the fixed size if the size differs, updates last_good and writes it. -/
def recLoop (frameSize : Nat × Nat) (fetch : Nat → Option Frame) :
    Nat → Nat → Frame → List Ev
  | _, 0, _ => []
  | i, k + 1, lastGood =>
    match fetch i with
    | none =>
      Ev.fetchAttempt i :: Ev.write lastGood ::
        recLoop frameSize fetch (i + 1) k lastGood
    | some f =>
      let f2 := if (f.w, f.h) = frameSize then f else cvResize f frameSize
      Ev.fetchAttempt i :: Ev.write f2 :: recLoop frameSize fetch (i + 1) k f2

/-- recorderTrace models main of esp32_capture_to_video.py as the sequence
of observable events of one session, parametrised by the fps and seconds
arguments, the parsed resize option, whether the VideoWriter opens, and
the outcome of the i-th call to fetch_jpeg (call 0 is the pre-fetch at
line 51).  A failed pre-fetch exits before any writer exists; a writer
that fails to open exits before any write; otherwise frame 0 is written
immediately and the tick loop runs for ticks 1..total_frames-1, after
which the writer is released. -/
def recorderTrace (fps seconds : ℚ) (rs : Option (Nat × Nat))
    (writerOk : Bool) (fetch : Nat → Option Frame) : List Ev :=
  match fetch 0 with
  | none => [Ev.fetchAttempt 0, Ev.errorExit]
  | some first =>
    let fs := sessionSize rs first
    if writerOk then
      let n := totalFrames seconds fps
      Ev.fetchAttempt 0 :: Ev.openWriter fs :: Ev.write (firstWrite rs first)
        :: (recLoop fs fetch 1 (n - 1).toNat (firstWrite rs first)
            ++ [Ev.release])
    else
      [Ev.fetchAttempt 0, Ev.openWriter fs, Ev.errorExit]

/-- writeFrame projects a write event to its frame. -/
def writeFrame : Ev → Option Frame
  | .write f => some f
  | _ => none

/-- writtenOf extracts, in order, the frames a trace writes to the sink. -/
def writtenOf (t : List Ev) : List Frame :=
  t.filterMap writeFrame

/-- isFetchAttempt tests whether an event is a call to fetch_jpeg. -/
def isFetchAttempt : Ev → Bool
  | .fetchAttempt _ => true
  | _ => false

/-- put_latest models the producer side of the single-slot queue in
fast_ipcam_still_stream.py, lines 52-59: drain every stale frame with
get_nowait, then put_nowait the new frame.  The queue (maxsize 1) is a
list of at most one frame. -/
def put_latest (_q : List Frame) (f : Frame) : List Frame :=
  let drained : List Frame := []
  drained ++ [f]

/-- qget models Queue.get on the single-slot queue: return the occupant
and clear the slot, or report empty. -/
def qget : List Frame → Option Frame × List Frame
  | [] => (none, [])
  | f :: rest => (some f, rest)

/-- backoffGrow models line 63 of fast_ipcam_still_stream.py:
backoff = min(0.5, backoff + 0.05). -/
def backoffGrow (b : ℚ) : ℚ :=
  min (1/2) (b + 1/20)

/-- fetcherBackoff runs the backoff state of the fetcher loop over a list
of per-iteration outcomes (true = fetch and decode succeeded) from the
given backoff value, returning the final backoff value and the sleep
durations performed on the failure iterations.  It models lines 44-64:
success resets backoff to 0.0; failure first grows backoff (capped at
0.5) and then sleeps for the grown value. -/
def fetcherBackoff : List Bool → ℚ → ℚ × List ℚ
  | [], b => (b, [])
  | o :: os, b =>
    if o then fetcherBackoff os 0
    else
      let b2 := backoffGrow b
      let r := fetcherBackoff os b2
      (r.1, b2 :: r.2)

/-- fetchPeriod models line 32 of fast_ipcam_still_stream.py:
period = 1.0 / max(0.1, target_fps). -/
def fetchPeriod (target_fps : ℚ) : ℚ :=
  1 / max (1/10) target_fps

/-- fetchStart gives the idealised start time of the i-th fetch of the
pacer loop (lines 36-48), with d i the duration of fetch i and the clock
starting at 0.  t_next starts at the current time and is advanced by one
period per fetch, so fetch i waits until t_next = i * p or fires
immediately if the previous fetch ended later than that. -/
def fetchStart (p : ℚ) (d : Nat → ℚ) : Nat → ℚ
  | 0 => 0
  | i + 1 => max (fetchStart p d i + d i) (((i : ℚ) + 1) * p)

/-- attemptsIn counts, among the first K fetches, those whose start time
falls in the window [a, a + W). -/
def attemptsIn (p : ℚ) (d : Nat → ℚ) (K : Nat) (a W : ℚ) : Nat :=
  ((Finset.range K).filter
    (fun i => a ≤ fetchStart p d i ∧ fetchStart p d i < a + W)).card

/-- frameA is a concrete 4x3 frame used in concrete scenarios. -/
def frameA : Frame := ⟨4, 3, 0⟩

/-- frameB is a second concrete 4x3 frame, distinct from frameA. -/
def frameB : Frame := ⟨4, 3, 1⟩

/-- demoFetch is the fetch outcome sequence Success(A), Failure, Failure,
Success(B) for calls 0-3. -/
def demoFetch : Nat → Option Frame
  | 0 => some frameA
  | 3 => some frameB
  | _ => none

/-- demoFail is the fetch outcome sequence with a successful call 0 and
every later call failing. -/
def demoFail : Nat → Option Frame :=
  fun i => if i = 0 then some frameA else none

/-- burstDur is a duration assignment where fetch 0 runs for 3 seconds
and every later fetch is instantaneous. -/
def burstDur : Nat → ℚ :=
  fun i => if i = 0 then 3 else 0

@[simp] theorem writtenOf_nil : writtenOf [] = [] := rfl

@[simp] theorem writtenOf_cons_fetch (i : Nat) (t : List Ev) :
    writtenOf (Ev.fetchAttempt i :: t) = writtenOf t := rfl

@[simp] theorem writtenOf_cons_error (t : List Ev) :
    writtenOf (Ev.errorExit :: t) = writtenOf t := rfl

@[simp] theorem writtenOf_cons_open (sz : Nat × Nat) (t : List Ev) :
    writtenOf (Ev.openWriter sz :: t) = writtenOf t := rfl

@[simp] theorem writtenOf_cons_write (f : Frame) (t : List Ev) :
    writtenOf (Ev.write f :: t) = f :: writtenOf t := rfl

@[simp] theorem writtenOf_cons_release (t : List Ev) :
    writtenOf (Ev.release :: t) = writtenOf t := rfl

@[simp] theorem writtenOf_append (a b : List Ev) :
    writtenOf (a ++ b) = writtenOf a ++ writtenOf b :=
  List.filterMap_append a b writeFrame

/-- The recorder tick loop writes exactly one frame per remaining tick. -/
theorem recLoop_writes_length (fs : Nat × Nat) (fetch : Nat → Option Frame) :
    ∀ (k i : Nat) (lg : Frame), (writtenOf (recLoop fs fetch i k lg)).length = k := by
  intro k
  induction k with
  | zero => intro i lg; rfl
  | succ k ih =>
    intro i lg
    cases hfi : fetch i with
    | none =>
      simp only [recLoop, hfi, writtenOf_cons_fetch, writtenOf_cons_write,
        List.length_cons]
      rw [ih (i + 1) lg]
    | some f =>
      simp only [recLoop, hfi, writtenOf_cons_fetch, writtenOf_cons_write,
        List.length_cons]
      rw [ih (i + 1) _]

/-- C1 (amended): with the first fetch successful and the writer open, a
recorder session for fps F and duration D writes exactly
max(1, round(D * F)) frames and then releases the writer.  When
round(D * F) is 0 or negative the session still writes one frame (frame
0 is written unconditionally before the tick loop), so the original
claim's zero-frame case is false. -/
theorem recorder_frame_count (fps seconds : ℚ) (rs : Option (Nat × Nat))
    (fetch : Nat → Option Frame) (first : Frame) (h0 : fetch 0 = some first) :
    (writtenOf (recorderTrace fps seconds rs true fetch)).length
      = (max 1 (totalFrames seconds fps)).toNat
    ∧ Ev.release ∈ recorderTrace fps seconds rs true fetch := by
  constructor
  · simp only [recorderTrace, h0, if_true, writtenOf_cons_fetch,
      writtenOf_cons_open, writtenOf_cons_write, writtenOf_append,
      writtenOf_cons_release, writtenOf_nil, List.append_nil, List.length_cons]
    rw [recLoop_writes_length]
    omega
  · simp [recorderTrace, h0]

theorem recorder_frame_count_witness :
    (writtenOf (recorderTrace 1 1 none true (fun _ => some frameA))).length
      = (max 1 (totalFrames 1 1)).toNat
    ∧ Ev.release ∈ recorderTrace 1 1 none true (fun _ => some frameA) :=
  recorder_frame_count 1 1 none (fun _ => some frameA) frameA rfl

/-- C1 counterexample: for fps = 10 and duration 0 seconds,
round(F * D) = 0 yet the session writes one frame, not zero. -/
theorem recorder_zero_frames_counterexample :
    totalFrames 0 10 = 0
    ∧ (writtenOf (recorderTrace 10 0 none true (fun _ => some frameA))).length = 1
    ∧ (writtenOf (recorderTrace 10 0 none true (fun _ => some frameA))).length
        ≠ (totalFrames 0 10).toNat := by
  have h : totalFrames 0 10 = 0 := by norm_num [totalFrames, pyRound]
  refine ⟨h, ?_, ?_⟩ <;> simp only [recorderTrace, h] <;> decide

/-- On a failure tick the recorder tick loop writes the same frame it
wrote on the previous tick (the frozen last_good frame). -/
theorem recLoop_freeze (fs : Nat × Nat) (fetch : Nat → Option Frame) :
    ∀ (k i : Nat) (lg : Frame) (j : Nat), j < k → fetch (i + j) = none →
      (writtenOf (recLoop fs fetch i k lg)).get? j
        = (lg :: writtenOf (recLoop fs fetch i k lg)).get? j := by
  intro k
  induction k with
  | zero => intro i lg j hj; omega
  | succ k ih =>
    intro i lg j hj hfail
    cases j with
    | zero =>
      have hfi : fetch i = none := by simpa using hfail
      simp [recLoop, hfi]
    | succ j =>
      have hf2 : fetch ((i + 1) + j) = none := by
        have : (i + 1) + j = i + (j + 1) := by omega
        rw [this]; exact hfail
      cases hfi : fetch i with
      | none =>
        simp only [recLoop, hfi, writtenOf_cons_fetch, writtenOf_cons_write,
          List.get?_cons_succ]
        exact ih (i + 1) lg j (by omega) hf2
      | some f =>
        simp only [recLoop, hfi, writtenOf_cons_fetch, writtenOf_cons_write,
          List.get?_cons_succ]
        exact ih (i + 1) _ j (by omega) hf2

/-- C2: on every failure tick the recorder writes exactly the frame
written on the previous tick, so a failure run repeats the frame of the
most recent successful tick, and last_good is overwritten only on a
successful fetch; concretely, fetch outcomes Success(A), Failure,
Failure, Success(B) for ticks 0-3 produce the written sequence
A, A, A, B. -/
theorem recorder_freeze (fps seconds : ℚ) (rs : Option (Nat × Nat))
    (fetch : Nat → Option Frame) (first : Frame) (h0 : fetch 0 = some first)
    (i : Nat) (h1 : 1 ≤ i) (h2 : (i : ℤ) < totalFrames seconds fps)
    (hf : fetch i = none) :
    (writtenOf (recorderTrace fps seconds rs true fetch)).get? i
      = (writtenOf (recorderTrace fps seconds rs true fetch)).get? (i - 1)
    ∧ writtenOf (recorderTrace 2 2 none true demoFetch)
        = [frameA, frameA, frameA, frameB] := by
  constructor
  · obtain ⟨j, rfl⟩ : ∃ j, i = j + 1 := ⟨i - 1, by omega⟩
    simp only [recorderTrace, h0, if_true, writtenOf_cons_fetch,
      writtenOf_cons_open, writtenOf_cons_write, writtenOf_append,
      writtenOf_cons_release, writtenOf_nil, List.append_nil,
      List.get?_cons_succ, Nat.add_sub_cancel]
    have hj : j < (totalFrames seconds fps - 1).toNat := by omega
    have hfail : fetch (1 + j) = none := by
      have : 1 + j = j + 1 := by omega
      rw [this]; exact hf
    exact (recLoop_freeze (sessionSize rs first) fetch
      (totalFrames seconds fps - 1).toNat 1 (firstWrite rs first) j hj hfail).symm ▸ rfl
  · have h : totalFrames 2 2 = 4 := by norm_num [totalFrames, pyRound]
    simp only [recorderTrace, h]
    decide

theorem recorder_freeze_witness :
    (writtenOf (recorderTrace 2 1 none true demoFail)).get? 1
      = (writtenOf (recorderTrace 2 1 none true demoFail)).get? 0
    ∧ writtenOf (recorderTrace 2 2 none true demoFetch)
        = [frameA, frameA, frameA, frameB] :=
  recorder_freeze 2 1 none demoFail frameA rfl 1 (by norm_num)
    (by norm_num [totalFrames, pyRound]) rfl

/-- Every frame the recorder tick loop writes has the fixed session
dimensions, provided the incoming last_good frame has them. -/
theorem recLoop_size (fs : Nat × Nat) (fetch : Nat → Option Frame) :
    ∀ (k i : Nat) (lg : Frame), (lg.w, lg.h) = fs →
      ∀ f ∈ writtenOf (recLoop fs fetch i k lg), (f.w, f.h) = fs := by
  intro k
  induction k with
  | zero => intro i lg _ f hf; simp [recLoop] at hf
  | succ k ih =>
    intro i lg hlg f hf
    cases hfi : fetch i with
    | none =>
      simp only [recLoop, hfi, writtenOf_cons_fetch, writtenOf_cons_write,
        List.mem_cons] at hf
      rcases hf with rfl | hf
      · exact hlg
      · exact ih (i + 1) lg hlg f hf
    | some g =>
      simp only [recLoop, hfi, writtenOf_cons_fetch, writtenOf_cons_write,
        List.mem_cons] at hf
      have hg2 : ((if (g.w, g.h) = fs then g else cvResize g fs).w,
          (if (g.w, g.h) = fs then g else cvResize g fs).h) = fs := by
        by_cases hsz : (g.w, g.h) = fs
        · simp [hsz]
        · simp [hsz, cvResize]
      rcases hf with rfl | hf
      · exact hg2
      · exact ih (i + 1) _ hg2 f hf

/-- C8: every frame a recorder session passes to the sink has exactly the
session's fixed output dimensions, established at writer-open time from
the resize option or the first frame; successes of other sizes are
resized and frozen fallback frames already conform. -/
theorem written_frames_size (fps seconds : ℚ) (rs : Option (Nat × Nat))
    (fetch : Nat → Option Frame) (first : Frame) (h0 : fetch 0 = some first) :
    ∀ f ∈ writtenOf (recorderTrace fps seconds rs true fetch),
      (f.w, f.h) = sessionSize rs first := by
  intro f hf
  simp only [recorderTrace, h0, if_true, writtenOf_cons_fetch,
    writtenOf_cons_open, writtenOf_cons_write, writtenOf_append,
    writtenOf_cons_release, writtenOf_nil, List.append_nil,
    List.mem_cons] at hf
  have hfw : ((firstWrite rs first).w, (firstWrite rs first).h)
      = sessionSize rs first := by
    cases rs with
    | none => rfl
    | some sz => rfl
  rcases hf with rfl | hf
  · exact hfw
  · exact recLoop_size (sessionSize rs first) fetch _ 1 (firstWrite rs first) hfw f hf

theorem written_frames_size_witness :
    (frameA.w, frameA.h) = sessionSize none frameA :=
  written_frames_size 1 1 none (fun _ => some frameA) frameA rfl frameA
    (by have h : totalFrames 1 1 = 1 := by norm_num [totalFrames, pyRound]
        simp only [recorderTrace, h]
        decide)

/-- C7: if the first fetch fails, the session emits its diagnostic and
terminates after exactly one fetch attempt, with no writer opened and no
frame written, for any writer state and any later fetch outcomes. -/
theorem first_fetch_precondition (fps seconds : ℚ) (rs : Option (Nat × Nat))
    (writerOk : Bool) (fetch : Nat → Option Frame) (h : fetch 0 = none) :
    recorderTrace fps seconds rs writerOk fetch = [Ev.fetchAttempt 0, Ev.errorExit]
    ∧ (∀ sz, Ev.openWriter sz ∉ recorderTrace fps seconds rs writerOk fetch)
    ∧ writtenOf (recorderTrace fps seconds rs writerOk fetch) = []
    ∧ ((recorderTrace fps seconds rs writerOk fetch).filter isFetchAttempt).length = 1
    ∧ Ev.errorExit ∈ recorderTrace fps seconds rs writerOk fetch := by
  have e : recorderTrace fps seconds rs writerOk fetch
      = [Ev.fetchAttempt 0, Ev.errorExit] := by
    simp [recorderTrace, h]
  rw [e]
  refine ⟨rfl, ?_, rfl, rfl, ?_⟩
  · intro sz
    simp
  · simp

theorem first_fetch_precondition_witness :
    recorderTrace 1 1 none true (fun _ => none)
      = [Ev.fetchAttempt 0, Ev.errorExit] :=
  (first_fetch_precondition 1 1 none true (fun _ => none) rfl).1

/-- C3 counterexample: when the HTTP GET succeeds but the JPEG decode
raises an exception (which is not a requests.RequestException),
fetch_jpeg propagates the exception instead of returning None. -/
theorem fetch_jpeg_decode_raises_counterexample :
    fetch_jpeg (HttpResult.ok []) (fun _ => DecodeResult.raises)
      = Except.error PyExc.otherException := rfl

/-- C3 (amended): fetch_jpeg returns None on non-2xx status, transport
error or timeout, and on a null decode result, and returns the decoded
frame on success; but an exception raised during decode is not caught
(only requests.RequestException is) and propagates to the caller. -/
theorem fetch_jpeg_outcomes (http : HttpResult)
    (imdecode : List Nat → DecodeResult) (body : List Nat) (f : Frame) :
    fetch_jpeg HttpResult.badStatus imdecode = Except.ok none
    ∧ fetch_jpeg HttpResult.transportError imdecode = Except.ok none
    ∧ (http = HttpResult.ok body → imdecode body = DecodeResult.null →
        fetch_jpeg http imdecode = Except.ok none)
    ∧ (http = HttpResult.ok body → imdecode body = DecodeResult.image f →
        fetch_jpeg http imdecode = Except.ok (some f))
    ∧ (http = HttpResult.ok body → imdecode body = DecodeResult.raises →
        fetch_jpeg http imdecode = Except.error PyExc.otherException) := by
  refine ⟨rfl, rfl, ?_, ?_, ?_⟩ <;>
    (rintro rfl hd; simp [fetch_jpeg, hd])

theorem fetch_jpeg_outcomes_witness :
    fetch_jpeg (HttpResult.ok []) (fun _ => DecodeResult.null) = Except.ok none :=
  (fetch_jpeg_outcomes (HttpResult.ok []) (fun _ => DecodeResult.null) []
    frameA).2.2.1 rfl rfl

/-- The grown backoff never exceeds the 0.5 second cap. -/
theorem backoffGrow_le_half (b : ℚ) : backoffGrow b ≤ 1/2 :=
  min_le_left _ _

/-- Growing the backoff never decreases it while it is within the cap. -/
theorem le_backoffGrow (b : ℚ) (hb : b ≤ 1/2) : b ≤ backoffGrow b :=
  le_min hb (by linarith)

/-- The grown backoff stays nonnegative. -/
theorem backoffGrow_nonneg (b : ℚ) (hb : 0 ≤ b) : 0 ≤ backoffGrow b :=
  le_min (by norm_num) (by linarith)

/-- Unfolding one failure iteration of the fetcher backoff loop. -/
theorem sleeps_replicate (n : Nat) (b : ℚ) :
    (fetcherBackoff (List.replicate (n + 1) false) b).2
      = backoffGrow b :: (fetcherBackoff (List.replicate n false) (backoffGrow b)).2 := by
  simp [List.replicate, fetcherBackoff]

/-- Sleep durations over consecutive failures form a non-decreasing chain. -/
theorem backoff_sleeps_chain :
    ∀ (n : Nat) (b : ℚ), 0 ≤ b → b ≤ 1/2 →
      List.Chain' (· ≤ ·) (fetcherBackoff (List.replicate n false) b).2 := by
  intro n
  induction n with
  | zero => intro b _ _; simp [fetcherBackoff]
  | succ k ih =>
    intro b hb0 hb1
    rw [sleeps_replicate]
    rcases k with _ | m
    · simp [fetcherBackoff]
    · rw [sleeps_replicate]
      refine List.chain'_cons.mpr ⟨?_, ?_⟩
      · exact le_backoffGrow _ (backoffGrow_le_half b)
      · rw [← sleeps_replicate]
        exact ih (backoffGrow b) (backoffGrow_nonneg b hb0) (backoffGrow_le_half b)

/-- C4 counterexample: the first failure after a success sleeps for 0.05
seconds, not zero: the code grows backoff before sleeping. -/
theorem backoff_first_sleep_counterexample :
    (fetcherBackoff [true, false] 0).2 = [1/20]
    ∧ (fetcherBackoff [true, false] 0).2 ≠ [0] := by
  constructor <;> norm_num [fetcherBackoff, backoffGrow, min_def]

/-- C4 (amended): on each failure the task first grows backoff_duration
by 0.05 capped at 0.5 and then sleeps for the grown value (so the first
failure after a success sleeps 0.05, not zero); consecutive failures
produce a non-decreasing delay sequence capped at 0.5, and a single
success resets backoff_duration to zero. -/
theorem backoff_grow_reset (b : ℚ) (os : List Bool)
    (hb0 : 0 ≤ b) (hb1 : b ≤ 1/2) :
    b ≤ backoffGrow b
    ∧ backoffGrow b ≤ 1/2
    ∧ fetcherBackoff (true :: os) b = fetcherBackoff os 0
    ∧ (fetcherBackoff (false :: os) b).2
        = backoffGrow b :: (fetcherBackoff os (backoffGrow b)).2
    ∧ List.Chain' (· ≤ ·) (fetcherBackoff (List.replicate os.length false) b).2 := by
  refine ⟨le_backoffGrow b hb1, backoffGrow_le_half b, ?_, ?_, ?_⟩
  · simp [fetcherBackoff]
  · simp [fetcherBackoff]
  · exact backoff_sleeps_chain os.length b hb0 hb1

theorem backoff_grow_reset_witness :
    (0 : ℚ) ≤ backoffGrow 0
    ∧ backoffGrow 0 ≤ 1/2
    ∧ fetcherBackoff (true :: [false]) 0 = fetcherBackoff [false] 0
    ∧ (fetcherBackoff (false :: [false]) 0).2
        = backoffGrow 0 :: (fetcherBackoff [false] (backoffGrow 0)).2
    ∧ List.Chain' (· ≤ ·) (fetcherBackoff (List.replicate ([false] : List Bool).length false) 0).2 :=
  backoff_grow_reset 0 [false] (by norm_num) (by norm_num)

/-- Folding any nonempty sequence of puts leaves exactly the last value. -/
theorem foldl_put_latest :
    ∀ (fs : List Frame) (q : List Frame) (l : Frame),
      fs.getLast? = some l → fs.foldl put_latest q = [l] := by
  intro fs
  induction fs with
  | nil => intro q l h; simp at h
  | cons f t ih =>
    intro q l h
    cases t with
    | nil =>
      simp only [List.getLast?_singleton, Option.some.injEq] at h
      subst h
      rfl
    | cons f2 t2 =>
      rw [List.foldl_cons]
      apply ih
      rw [← h, List.getLast?_cons_cons]

/-- C5: after N successive puts with no intervening get, a get returns
exactly the Nth value; each put replaces any occupant without blocking
and the buffer never holds more than one frame. -/
theorem buffer_latest_wins (q fs : List Frame) (l : Frame)
    (h : fs.getLast? = some l) :
    fs.foldl put_latest q = [l]
    ∧ (qget (fs.foldl put_latest q)).1 = some l
    ∧ (∀ q2 f, put_latest q2 f = [f])
    ∧ (∀ q2 f, (put_latest q2 f).length ≤ 1) := by
  have e := foldl_put_latest fs q l h
  refine ⟨e, by rw [e]; rfl, fun q2 f => rfl, fun q2 f => by simp [put_latest]⟩

theorem buffer_latest_wins_witness :
    ([frameA, frameB] : List Frame).foldl put_latest [] = [frameB] :=
  (buffer_latest_wins [] [frameA, frameB] frameB rfl).1

/-- When every fetch completes within one period, the pacer starts fetch
i exactly at time i * period. -/
theorem fetchStart_eq_mul (p : ℚ) (d : Nat → ℚ) (hd : ∀ i, d i ≤ p) :
    ∀ i, fetchStart p d i = i * p := by
  intro i
  induction i with
  | zero => simp [fetchStart]
  | succ j ih =>
    rw [fetchStart, ih]
    have hle : (j : ℚ) * p + d j ≤ ((j : ℚ) + 1) * p := by
      have := hd j
      ring_nf
      linarith
    rw [max_eq_right hle]
    push_cast
    ring

/-- C6 (amended): when every fetch duration is at most the period (so
next_due never falls behind wall clock), the number of fetch attempts in
any window [a, a+W) inside the session is within one unit of W / period
= R * W.  The original claim's no-catch-up-burst part is false: after a
fetch that runs long the pacer fires back-to-back fetches until next_due
catches up. -/
theorem pacer_window_count (p : ℚ) (d : Nat → ℚ) (K : Nat) (a W : ℚ)
    (hp : 0 < p) (hd : ∀ i, d i ≤ p) (ha : 0 ≤ a) (hW : 0 ≤ W)
    (hK : a + W ≤ K * p) :
    |(attemptsIn p d K a W : ℚ) - W / p| ≤ 1 := by
  have hs := fetchStart_eq_mul p d hd
  set m := ⌈a / p⌉ with hm
  set M := ⌈(a + W) / p⌉ with hM
  have hm0 : 0 ≤ m := Int.ceil_nonneg (div_nonneg ha hp.le)
  have hMK : M ≤ (K : ℤ) := by
    rw [hM, Int.ceil_le]
    rw [div_le_iff₀ hp]
    push_cast
    linarith
  have hmM : m ≤ M := by
    apply Int.ceil_mono
    gcongr
    linarith
  have hfil : ((Finset.range K).filter
      (fun i => a ≤ fetchStart p d i ∧ fetchStart p d i < a + W))
      = Finset.Ico m.toNat M.toNat := by
    ext i
    simp only [Finset.mem_filter, Finset.mem_range, Finset.mem_Ico, hs]
    constructor
    · rintro ⟨hiK, h1, h2⟩
      have hdiv1 : a / p ≤ (i : ℚ) := (div_le_iff₀ hp).mpr h1
      have hmi : m ≤ (i : ℤ) := by
        rw [hm]
        exact Int.ceil_le.mpr (by exact_mod_cast hdiv1)
      have hdiv2 : (i : ℚ) < (a + W) / p := (lt_div_iff₀ hp).mpr h2
      have hiM : (i : ℤ) < M := by
        rw [hM]
        exact Int.lt_ceil.mpr (by exact_mod_cast hdiv2)
      omega
    · rintro ⟨h1, h2⟩
      have hmi : m ≤ (i : ℤ) := by omega
      have hiM : (i : ℤ) < M := by omega
      have hdiv1 : a / p ≤ (i : ℚ) := by
        calc a / p ≤ m := Int.le_ceil _
        _ ≤ (i : ℚ) := by exact_mod_cast hmi
      have hdiv2 : (i : ℚ) < (a + W) / p := by
        have := Int.lt_ceil.mp (hM ▸ hiM)
        exact_mod_cast this
      refine ⟨by omega, (div_le_iff₀ hp).mp hdiv1, (lt_div_iff₀ hp).mp hdiv2⟩
  rw [attemptsIn, hfil, Nat.card_Ico]
  have hMm : m.toNat ≤ M.toNat := by omega
  have hcast : ((M.toNat - m.toNat : ℕ) : ℚ) = (M : ℚ) - (m : ℚ) := by
    have e1 : ((M.toNat : ℤ) : ℚ) = (M : ℚ) := by
      rw [Int.toNat_of_nonneg (by omega)]
    have e2 : ((m.toNat : ℤ) : ℚ) = (m : ℚ) := by
      rw [Int.toNat_of_nonneg hm0]
    push_cast [Nat.cast_sub hMm]
    push_cast at e1 e2
    rw [e1, e2]
  rw [hcast]
  have hMl : ((a + W) / p : ℚ) ≤ M := Int.le_ceil _
  have hMu : (M : ℚ) < (a + W) / p + 1 := Int.ceil_lt_add_one _
  have hml : (a / p : ℚ) ≤ m := Int.le_ceil _
  have hmu : (m : ℚ) < a / p + 1 := Int.ceil_lt_add_one _
  have hadd : (a + W) / p = a / p + W / p := add_div a W p
  rw [abs_le]
  constructor <;> linarith

theorem pacer_window_count_witness :
    |(attemptsIn 1 (fun _ => 0) 5 1 2 : ℚ) - 2 / 1| ≤ 1 :=
  pacer_window_count 1 (fun _ => 0) 5 1 2 (by norm_num)
    (fun i => by norm_num) (by norm_num) (by norm_num) (by norm_num)

/-- C6 counterexample: with target rate R = 1 (period 1), a first fetch
lasting 3 seconds makes fetches 1-3 all fire at time 3: the window
[3, 4) holds 3 attempts, which is not within one unit of R * W = 1 —
a catch-up burst exceeding rate R. -/
theorem pacer_burst_counterexample :
    fetchPeriod 1 = 1
    ∧ attemptsIn 1 burstDur 5 3 1 = 3
    ∧ ¬(|((3 : ℚ)) - 1 * 1| ≤ 1) := by
  refine ⟨by norm_num [fetchPeriod, max_def], ?_, by norm_num⟩
  have h0 : fetchStart 1 burstDur 0 = 0 := rfl
  have h1 : fetchStart 1 burstDur 1 = 3 := by
    rw [fetchStart, h0]; norm_num [burstDur, max_def]
  have h2 : fetchStart 1 burstDur 2 = 3 := by
    rw [fetchStart, h1]; norm_num [burstDur, max_def]
  have h3 : fetchStart 1 burstDur 3 = 3 := by
    rw [fetchStart, h2]; norm_num [burstDur, max_def]
  have h4 : fetchStart 1 burstDur 4 = 4 := by
    rw [fetchStart, h3]; norm_num [burstDur, max_def]
  have hfil : ((Finset.range 5).filter
      (fun i => (3 : ℚ) ≤ fetchStart 1 burstDur i ∧ fetchStart 1 burstDur i < 3 + 1))
      = (Finset.range 5).filter (fun i => 1 ≤ i ∧ i ≤ 3) := by
    apply Finset.filter_congr
    intro x hx
    simp only [Finset.mem_range] at hx
    interval_cases x <;> norm_num [h0, h1, h2, h3, h4]
  rw [attemptsIn, hfil]
  decide

/-- C9: the pacing period is 1 / max(0.1, target_fps); for every
target_fps, including zero and negative values, the divisor is nonzero
and the period is positive and at most 10 seconds. -/
theorem fetch_period_clamped (target_fps : ℚ) :
    max (1/10 : ℚ) target_fps ≠ 0
    ∧ 0 < fetchPeriod target_fps
    ∧ fetchPeriod target_fps ≤ 10 := by
  have hpos : (0 : ℚ) < max (1/10) target_fps :=
    lt_of_lt_of_le (by norm_num) (le_max_left _ _)
  refine ⟨ne_of_gt hpos, ?_, ?_⟩
  · exact div_pos one_pos hpos
  · rw [fetchPeriod]
    rw [div_le_iff₀ hpos]
    have := le_max_left (1/10 : ℚ) target_fps
    linarith

/-- C10: pick_fourcc is total and case-insensitive: strings with equal
lowercasings map to the same code; mp4v, xvid, mjpg and the alias mjpeg
map (in any letter case) to their codes, and every other string maps to
the mp4v code as the default. -/
theorem pick_fourcc_spec (s t u : String) (hst : strLower s = strLower t)
    (hu1 : strLower u ≠ "mp4v") (hu2 : strLower u ≠ "xvid")
    (hu3 : strLower u ≠ "mjpg") (hu4 : strLower u ≠ "mjpeg") :
    pick_fourcc s = pick_fourcc t
    ∧ pick_fourcc "MP4V" = fourcc 'm' 'p' '4' 'v'
    ∧ pick_fourcc "Xvid" = fourcc 'X' 'V' 'I' 'D'
    ∧ pick_fourcc "mjpg" = fourcc 'M' 'J' 'P' 'G'
    ∧ pick_fourcc "MJPEG" = fourcc 'M' 'J' 'P' 'G'
    ∧ pick_fourcc u = fourcc 'm' 'p' '4' 'v' := by
  refine ⟨?_, by decide, by decide, by decide, by decide, ?_⟩
  · simp only [pick_fourcc, hst]
  · simp only [pick_fourcc, hu1, hu2, hu3, hu4]
    simp

theorem pick_fourcc_spec_witness :
    pick_fourcc "a" = pick_fourcc "A"
    ∧ pick_fourcc "MP4V" = fourcc 'm' 'p' '4' 'v'
    ∧ pick_fourcc "Xvid" = fourcc 'X' 'V' 'I' 'D'
    ∧ pick_fourcc "mjpg" = fourcc 'M' 'J' 'P' 'G'
    ∧ pick_fourcc "MJPEG" = fourcc 'M' 'J' 'P' 'G'
    ∧ pick_fourcc "h264" = fourcc 'm' 'p' '4' 'v' :=
  pick_fourcc_spec "a" "A" "h264" (by decide) (by decide) (by decide)
    (by decide) (by decide)
